import Mathlib

/-!
Shallow embedding of the guardian RBAC library (Go) and proofs about the
behaviour of its authentication, session, RBAC resolution and migration code.

Each definition mirrors one Go function from the repository:
  * `authenticate`        — `auth/auth.go` `Authenticate`
  * `verifyToken`/`logout`/`clearSession` — `auth/auth.go` session handling
  * `executeRules`        — `auth/auth.go` `executeRules`
  * `authRBAC`            — `auth/auth.go` `authenticateRBAC`
  * `getRolesRuleArgs`/`getRolesRule` — `schema/rule.go` `GetRolesRule`
  * `Run`                 — `migration/migration.go` `Run`
Machine state that Go mutates (the redis cache, the SQL database, the HTTP
response) is passed explicitly; fallible Go calls return `Except`.
-/

namespace Guardian

/-- A row of `rbac_user` (`schema/user.go`): the fields used by the
authentication and RBAC code. `password` holds the stored hash. -/
structure User where
  id : Int
  username : String
  email : String
  password : String
  active : Bool
  deriving DecidableEq, Repr

/-- `LoginMethod` constants from `auth/auth.go`. -/
inductive LoginMethod
  | email
  | username
  | emailUsername
  deriving DecidableEq, Repr

/-- `LoginParams` from `auth/auth.go`. -/
structure LoginParams where
  identifier : String
  password : String
  deriving DecidableEq, Repr

/-- The distinct error values declared in `auth/auth.go` that
`Authenticate` can return. -/
inductive AuthError
  | invalidUserLogin
  | invalidPasswordLogin
  | userNotActive
  deriving DecidableEq, Repr

/-- The user-record lookup performed by `Authenticate` for each login
method: `FindUser` with an `email`/`username` criterion, or
`FindUserByUsernameOrEmail` (`schema/user.go`); each issues a
`... WHERE <criterion> LIMIT 1` query, i.e. returns the first matching row. -/
def findUserLogin (m : LoginMethod) (db : List User) (identifier : String) : Option User :=
  match m with
  | .email => db.find? (fun u => u.email == identifier)
  | .username => db.find? (fun u => u.username == identifier)
  | .emailUsername => db.find? (fun u => u.email == identifier || u.username == identifier)

/-- `Auth.Authenticate` (`auth/auth.go` lines 101-135): look the user up by
the configured login method, reject with `ErrInvalidUserLogin` when no row
matched, with `ErrInvalidPasswordLogin` when the password strategy rejects
the password, with `ErrUserNotActive` when the row is inactive, and return
the row otherwise.  `validate hash pw` stands for
`passwordStrategy.ValidatePassword(hash, pw)`. -/
def authenticate (m : LoginMethod) (validate : String → String → Bool)
    (db : List User) (params : LoginParams) : Except AuthError User :=
  match findUserLogin m db params.identifier with
  | none => .error .invalidUserLogin
  | some loggedUser =>
    if !(validate loggedUser.password params.password) then
      .error .invalidPasswordLogin
    else if !loggedUser.active then
      .error .userNotActive
    else
      .ok loggedUser

/-! ### Session cache (`auth/auth.go` `VerifyToken`, `Logout`, `ClearSession`) -/

/-- The redis cache holding `token -> user id` entries written by
`SignIn`/`SignInCookie`. -/
abbrev Cache := List (String × Int)

/-- `GET key` against the cache: first binding of the key, if any. -/
def cacheGet (c : Cache) (key : String) : Option Int :=
  (c.find? (fun e => e.1 == key)).map (·.2)

/-- `DEL key` against the cache: removes any binding of the key; redis
`DEL` never fails on a missing key. -/
def cacheDel (c : Cache) (key : String) : Cache :=
  c.filter (fun e => e.1 != key)

/-- The error `VerifyToken` surfaces when the redis `GET` reply cannot be
read as an integer — in particular the `redis: nil` reply for an absent key. -/
inductive SessionError
  | redisNil
  deriving DecidableEq, Repr

/-- `Auth.VerifyToken` (`auth/auth.go` lines 451-460): `GET token` and read
the reply as the user id; an absent key yields an error. -/
def verifyToken (c : Cache) (token : String) : Except SessionError Int :=
  match cacheGet c token with
  | some v => .ok v
  | none => .error .redisNil

/-- A Go `panic`: the unrecoverable faults this code can raise. -/
inductive GoPanic
  | indexOutOfRange
  | nilInterfaceConversion
  | nilPointerDeref
  deriving DecidableEq, Repr

/-- The request data `Logout` consumes: the `UserPrinciple` context value
(if any) and the raw `Authorization` header value. -/
structure TokenRequest where
  ctxUser : Option User
  authorizationHeader : String
  deriving DecidableEq, Repr

/-- `GetUserLogin` (`auth/auth.go` lines 516-519): reads the
`UserPrinciple` context value and performs an UNCHECKED type assertion
`.(*schema.User)` on it; when the value is absent the assertion is on a nil
interface value and panics. -/
def GetUserLogin (ctxUser : Option User) : Except GoPanic User :=
  match ctxUser with
  | some u => .ok u
  | none => .error .nilInterfaceConversion

/-- `Auth.Logout` (`auth/auth.go` lines 216-234): read the logged-in user
from the request context (panicking when absent, see `GetUserLogin`), then
`DEL` the RAW `Authorization` header value — not the bare token that
`SignIn` used as the cache key. Returns the cache after the deletion and
the returned Go error (always nil: `DEL` does not fail). -/
def logout (c : Cache) (r : TokenRequest) : Except GoPanic (Cache × Option SessionError) :=
  match GetUserLogin r.ctxUser with
  | .error p => .error p
  | .ok _ => .ok (cacheDel c r.authorizationHeader, none)

/-- `Auth.ClearSession` (`auth/auth.go` lines 168-190): `DEL` the cookie
value (which IS the cache key written by `SignInCookie`); the deletion
itself never fails. -/
def clearSession (c : Cache) (cookieValue : String) : Cache × Option SessionError :=
  (cacheDel c cookieValue, none)

/-- `getUserPrinciple`, token branch (`auth/auth.go` lines 489-495): split
the `Authorization` header on spaces and use the second field as the token;
anything but exactly two fields is `ErrInvalidAuthorization`. -/
def tokenFromHeader (raw : String) : Option String :=
  match (raw.toList.splitOn ' ').map (fun cs => String.mk cs) with
  | [_, b] => some b
  | _ => none

/-! ### Rules and the rule registry (`schema/rule.go`, `auth/auth.go`) -/

/-- A row of `rbac_rule` (`schema/rule.go`). -/
structure Rule where
  id : Int
  ruleType : Int
  parentId : Int
  name : String
  deriving DecidableEq, Repr

/-- `EnumRuleTypes.RoleRuleType` (`schema/rule.go`). -/
def roleRuleType : Int := 13

/-- `EnumRuleTypes.PermissionRuleType` (`schema/rule.go`). -/
def permissionRuleType : Int := 9

/-- A registered `RuleExecutor` (`schema/rule.go`): `Name()` and
`Execute(user)`. -/
structure RuleExecutor where
  name : String
  run : User → Bool

/-- The `Auth.rules` map: rule name to executor.  `RegisterRule` inserts
under `executor.Name()`; lookups take the most recent binding (Go map
overwrite = last registration wins). -/
abbrev Registry := List (String × RuleExecutor)

/-- `Auth.RegisterRule` (`auth/auth.go` lines 92-96): a nil executor is
ignored, otherwise `rules[executor.Name()] = executor`. -/
def registerRule (reg : Registry) (ex : Option RuleExecutor) : Registry :=
  match ex with
  | none => reg
  | some e => (e.name, e) :: reg

/-- `Auth.executeRules` (`auth/auth.go` lines 365-375): walk the gathered
rules in order; a rule whose name is in the registry runs its executor and
a `false` result returns the error `"blocked by rule <name>"` at once; a
rule whose name is absent from the registry is skipped.  The result is the
returned Go error (`none` = nil = allow). -/
def executeRules (reg : Registry) (u : User) : List Rule → Option String
  | [] => none
  | r :: rest =>
    match reg.lookup r.name with
    | some ex =>
      if ex.run u then executeRules reg u rest
      else some ("blocked by rule " ++ ex.name)
    | none => executeRules reg u rest

/-! ### `authenticateRBAC` (`auth/auth.go` lines 306-362)

The five data-access calls the pipeline makes are passed in as explicit
results (`RBACCalls`); each is either a Go panic raised inside the call or
a Go `(value, error)` pair. -/

/-- A row of `rbac_permission` (`schema/permission.go`): the fields the
RBAC pipeline uses. -/
structure Permission where
  id : Int
  name : String
  method : String
  route : String
  deriving DecidableEq, Repr

/-- A row of `guard_role` (`schema/role.go`): the fields the RBAC pipeline
uses. -/
structure Role where
  id : Int
  name : String
  deriving DecidableEq, Repr

/-- The Go error values the RBAC pipeline's data-access calls can return. -/
inductive DataError
  | dbError (code : Nat)
  | argCountMismatch
  | invalidID
  deriving DecidableEq, Repr

/-- The outcome of one Go call: a panic, or a returned `(value, error)`
pair. -/
abbrev GoRes (α : Type) := Except GoPanic (Except DataError α)

/-- The results of the five data-access calls `authenticateRBAC` makes, in
source order. `permByResource` is an `Option` because
`GetPermissionByResource` returns `(nil, nil)` when no row matches. -/
structure RBACCalls where
  canAccess : GoRes Bool
  rolesResource : GoRes (List Role)
  permByResource : GoRes (Option Permission)
  rolesRule : GoRes (List Rule)
  permissionRule : GoRes (List Rule)

/-- The Go error values `authenticateRBAC` itself returns. -/
inductive RBACError
  | userNotFound
  | data (e : DataError)
  | ruleBlocked (msg : String)
  deriving DecidableEq, Repr

/-- What a run of `authenticateRBAC` does to the outside: panics, or
returns, having possibly written one HTTP status, with a Go error value
(`none` = nil). -/
inductive RBACOutcome
  | panicked (p : GoPanic)
  | response (writtenStatus : Option Nat) (returnedErr : Option RBACError)
  deriving DecidableEq, Repr

/-- `Auth.authenticateRBAC` (`auth/auth.go` lines 306-362), transcribed
branch by branch:
* `GetUserLogin(r)` panics when the `UserPrinciple` context value is
  absent (its nil-check afterwards is unreachable);
* `CanAccess`: on error OR on a `false` verdict it writes 403 and returns
  the error — which is nil in the plain-denial case;
* `GetRolesResourceContext`, `GetPermissionByResource`,
  `GetRolesRule`: an error writes 403 and is returned;
* the first `executeRules` over the role rules: a block writes 403;
* `GetPermissionRuleContext(ctx, *permission)` dereferences the possibly
  nil permission pointer; its error result is NOT checked — `err` is
  immediately overwritten by `executeRules` over the (then nil) rule
  slice — so a failure of that call falls through to the success return. -/
def authRBAC (reg : Registry) (ctxUser : Option User) (c : RBACCalls) : RBACOutcome :=
  match GetUserLogin ctxUser with
  | .error p => .panicked p
  | .ok user =>
    match c.canAccess with
    | .error p => .panicked p
    | .ok (.error e) => .response (some 403) (some (.data e))
    | .ok (.ok isAllowed) =>
      if !isAllowed then .response (some 403) none
      else
        match c.rolesResource with
        | .error p => .panicked p
        | .ok (.error e) => .response (some 403) (some (.data e))
        | .ok (.ok _roles) =>
          match c.permByResource with
          | .error p => .panicked p
          | .ok (.error e) => .response (some 403) (some (.data e))
          | .ok (.ok permOpt) =>
            match c.rolesRule with
            | .error p => .panicked p
            | .ok (.error e) => .response (some 403) (some (.data e))
            | .ok (.ok roleRules) =>
              match executeRules reg user roleRules with
              | some msg => .response (some 403) (some (.ruleBlocked msg))
              | none =>
                match permOpt with
                | none => .panicked .nilPointerDeref
                | some _ =>
                  match c.permissionRule with
                  | .error p => .panicked p
                  | .ok res =>
                    let permRules := match res with
                      | .ok rs => rs
                      | .error _ => []
                    match executeRules reg user permRules with
                    | some msg => .response (some 403) (some (.ruleBlocked msg))
                    | none => .response none none

/-! ### The relational store, and the pipeline's queries run against it -/

/-- The tables the RBAC pipeline reads. `userRoles` is `rbac_user_role`
(`user_id`, `role_id`); `rolePermissions` is `rbac_role_permission`
(`role_id`, `permission_id`). -/
structure RbacDB where
  roles : List Role
  userRoles : List (Int × Int)
  rolePermissions : List (Int × Int)
  permissions : List Permission
  rules : List Rule
  deriving Repr

/-- `User.CanAccess` (`schema/user.go` lines 195-207): the
`SELECT EXISTS(... JOIN ... WHERE ur.user_id = ? AND p.method = ? AND
p.route = ?)` query — does some user-role / role-permission / permission
row chain match the user id and the exact `(method, route)` pair. -/
def canAccess (db : RbacDB) (userId : Int) (method route : String) : Bool :=
  db.userRoles.any (fun ur =>
    ur.1 == userId &&
    db.rolePermissions.any (fun rp =>
      rp.1 == ur.2 &&
      db.permissions.any (fun p =>
        p.id == rp.2 && p.method == method && p.route == route)))

/-- `Role.GetRolesResourceContext` (`schema/role.go`): the roles joined to
the user and to a permission with the given `(method, route)`. -/
def getRolesResource (db : RbacDB) (userId : Int) (method route : String) : List Role :=
  db.roles.filter (fun r =>
    db.userRoles.any (fun ur => ur.1 == userId && ur.2 == r.id) &&
    db.rolePermissions.any (fun rp =>
      rp.1 == r.id &&
      db.permissions.any (fun p =>
        p.id == rp.2 && p.method == method && p.route == route)))

/-- `Permission.GetPermissionByResource` (`schema/permission.go` lines
325-350): `QueryRow ... WHERE method = ? AND route = ?` — the first
matching row, or `(nil, nil)` when there is none. -/
def getPermissionByResource (db : RbacDB) (method route : String) : Option Permission :=
  db.permissions.find? (fun p => p.method == method && p.route == route)

/-- The query-argument list `Rule.GetRolesRule` builds (`schema/rule.go`
lines 264-268): `args := make([]interface{}, len(roles))` (all nil), then
`args[0] = EnumRuleTypes.RoleRuleType` — an index-out-of-range panic when
`roles` is empty — then the role ids are APPENDED, leaving the nil
placeholders at positions 1 .. len(roles)-1 in place. -/
def getRolesRuleArgs (roles : List Role) : Except GoPanic (List (Option Int)) :=
  let args : List (Option Int) := List.replicate roles.length none
  if args.length = 0 then
    .error .indexOutOfRange
  else
    .ok (args.set 0 (some roleRuleType) ++ roles.map (fun r => some r.id))

/-- `Rule.GetRolesRuleContext` (`schema/rule.go` lines 306-310) builds its
argument list exactly as `GetRolesRule` does. -/
def getRolesRuleContextArgs (roles : List Role) : Except GoPanic (List (Option Int)) :=
  let args : List (Option Int) := List.replicate roles.length none
  if args.length = 0 then
    .error .indexOutOfRange
  else
    .ok (args.set 0 (some roleRuleType) ++ roles.map (fun r => some r.id))

/-- The number of `?` placeholders in the query text `GetRolesRule`
executes: the original `WHERE rule_type = ? AND parent_id in (?)` has its
`(?)` replaced by an IN-list with one `?` per element of `args`, so the
total is `1 + args.length`. -/
def rolesRuleQueryPlaceholders (args : List (Option Int)) : Nat :=
  1 + args.length

/-- `Rule.GetRolesRule` (`schema/rule.go` lines 259-298) run against the
store: build the argument list (panicking on an empty role list), then
execute the query.  `database/sql` rejects a statement whose placeholder
count differs from the number of supplied arguments (`sql: expected N
arguments, got M`), so the query only produces rows when the two counts
agree; in that case it selects the rules with `rule_type = RoleRuleType`
and `parent_id` among the given role ids. -/
def getRolesRule (db : RbacDB) (roles : List Role) : GoRes (List Rule) :=
  match getRolesRuleArgs roles with
  | .error p => .error p
  | .ok args =>
    if rolesRuleQueryPlaceholders args = args.length then
      .ok (.ok (db.rules.filter (fun r =>
        r.ruleType == roleRuleType && roles.any (fun ro => ro.id == r.parentId))))
    else
      .ok (.error .argCountMismatch)

/-- `Rule.GetPermissionRuleContext` (`schema/rule.go` lines 392-426):
rejects a non-positive permission id with `ErrInvalidID`, otherwise selects
the rules with `rule_type = PermissionRuleType AND parent_id = ?` (a
well-formed two-placeholder, two-argument query). -/
def getPermissionRule (db : RbacDB) (permissionId : Int) : GoRes (List Rule) :=
  if permissionId ≤ 0 then
    .ok (.error .invalidID)
  else
    .ok (.ok (db.rules.filter (fun r =>
      r.ruleType == permissionRuleType && r.parentId == permissionId)))

/-- The five data-access results `authenticateRBAC` obtains when its
queries run against the store `db` with no infrastructure failures.  The
`permissionRule` field is the result of
`GetPermissionRuleContext(ctx, *permission)`; when no permission row
exists that call is never reached (`authRBAC` panics on the nil
dereference first), so the field's value is immaterial and set to an empty
result. -/
def callsOfDb (db : RbacDB) (userId : Int) (method route : String) : RBACCalls :=
  let roles := getRolesResource db userId method route
  { canAccess := .ok (.ok (canAccess db userId method route))
    rolesResource := .ok (.ok roles)
    permByResource := .ok (.ok (getPermissionByResource db method route))
    rolesRule := getRolesRule db roles
    permissionRule :=
      match getPermissionByResource db method route with
      | some p => getPermissionRule db p.id
      | none => .ok (.ok []) }

/-- `authenticateRBAC` for a logged-in user whose queries run against the
store `db` with no infrastructure failures. -/
def authRBACDb (reg : Registry) (user : User) (db : RbacDB) (method route : String) : RBACOutcome :=
  authRBAC reg (some user) (callsOfDb db user.id method route)

/-! ### The middleware's request-context handling
(`auth/auth.go` `authenticateRoute` and the `AuthenticateRBAC*Handler`
middleware, lines 245-258 and 378-447) -/

/-- The part of an `*http.Request` this code touches: its context's
`UserPrinciple` value. -/
structure Request where
  ctxUserPrinciple : Option User
  deriving DecidableEq, Repr

/-- `context.WithValue(r.Context(), UserPrinciple, user)` followed by
`r.WithContext(ctx)`: a NEW request value carrying the user. -/
def withUserPrinciple (r : Request) (u : User) : Request :=
  { r with ctxUserPrinciple := some u }

/-- What `authenticateRoute` leaves behind: the final value of its LOCAL
variable `r` (the parameter it reassigned with `r = r.WithContext(ctx)`),
the status it wrote, and the error it returned.  `principle` is the result
of `getUserPrinciple(r, strategy)`. -/
structure RouteAuthResult where
  localRequest : Request
  writtenStatus : Option Nat
  returnedErr : Option SessionError
  deriving DecidableEq, Repr

/-- `Auth.authenticateRoute` (`auth/auth.go` lines 245-258): on a failed
principle lookup write 401 and return the error; on success attach the
user to the context of the callee-local `r` and return nil.  The updated
request is not returned to the caller. -/
def authenticateRoute (r : Request) (principle : Except SessionError User) : RouteAuthResult :=
  match principle with
  | .error e => { localRequest := r, writtenStatus := some 401, returnedErr := some e }
  | .ok user => { localRequest := withUserPrinciple r user, writtenStatus := none, returnedErr := none }

/-- The request an `AuthenticateRBAC*Handler` middleware forwards to
`authenticateRBAC` and to the inner handler after `authenticateRoute`
succeeded (`auth/auth.go` lines 378-447): the middleware's own `r` — Go
passes the `*http.Request` pointer by value, so `authenticateRoute`'s
reassignment of its local parameter is invisible here.  `none` when the
middleware returned early on an authentication error. -/
def forwardedRequest (r : Request) (principle : Except SessionError User) : Option Request :=
  match (authenticateRoute r principle).returnedErr with
  | some _ => none
  | none => some r

/-! ### The migration runner (`migration/migration.go` `Run`) -/

/-- The relational state a custom migration touches: the
`rbac_migration` history table plus the rows the migration function itself
writes (abstracted as a list of opaque row labels). -/
structure MigState where
  migrationKeys : List String
  appRows : List String
  deriving DecidableEq, Repr

/-- `MigrationSchema.CheckExistingMigration` (`schema/migration.go` lines
19-34): the `SELECT EXISTS(... WHERE migration_key = ?)` query. -/
def checkExistingMigration (s : MigState) (key : String) : Bool :=
  s.migrationKeys.contains key

/-- `MigrationSchema.WriteMigration` (`schema/migration.go` lines 43-53):
`INSERT INTO rbac_migration(migration_key) VALUES (?)`. -/
def writeMigration (s : MigState) (key : String) : MigState :=
  { s with migrationKeys := s.migrationKeys ++ [key] }

/-- The error values `Migration.Run` returns. -/
inductive MigError
  | alreadyExist
  | migrationHistory
  | fnError (code : Nat)
  deriving DecidableEq, Repr

/-- `Migration.Run` (`migration/migration.go` lines 154-203).  `db` is the
committed database; the transaction begun by `Begin()` is modelled as a
working copy of it, and the first component of the result is the committed
database after `Run` returns.  `fn db` is the migration function: the
transaction state after its writes plus its returned error (as a code).
`historyWriteFails` says whether the `WriteMigration` INSERT fails.

The deferred cleanup is declared as `defer func(err error) {...}(err)`:
its `err` argument is evaluated AT THE `defer` STATEMENT, i.e. it is the
(nil) error of `Begin()`, not the error the body later assigns.  The
cleanup therefore never sees a non-nil `err`, never takes its `Rollback`
branch, and always falls through to `gtx.dbTx.Commit()` — so every
non-panicking path commits the transaction. -/
def Run (db : MigState) (name : String)
    (fn : MigState → MigState × Option Nat) (historyWriteFails : Bool) :
    MigState × Option MigError :=
  let tx := db
  if checkExistingMigration tx name then
    (tx, some .alreadyExist)
  else
    match fn tx with
    | (tx1, some e) => (tx1, some (.fnError e))
    | (tx1, none) =>
      if historyWriteFails then
        (tx1, some .migrationHistory)
      else
        (writeMigration tx1 name, none)

/-! ### Concrete fixtures used by evaluation theorems and witnesses -/

/-- A registered, active user. -/
def sampleUser : User :=
  { id := 1, username := "admin", email := "admin@example.com", password := "hashpw", active := true }

/-- The permission governing `(GET, /dashboard)`. -/
def dashPermission : Permission :=
  { id := 100, name := "dashboard_owner", method := "GET", route := "/dashboard" }

/-- A store in which role 10 is assigned to user 1 and granted
`dashPermission`, with no rules attached. -/
def grantDb : RbacDB :=
  { roles := [{ id := 10, name := "admin" }]
    userRoles := [(1, 10)]
    rolePermissions := [(10, 100)]
    permissions := [dashPermission]
    rules := [] }

/-- The same store with the role-permission link removed. -/
def noGrantDb : RbacDB :=
  { grantDb with rolePermissions := [] }

/-- A migration function that inserts one row and succeeds. -/
def fnWriteOk : MigState → MigState × Option Nat :=
  fun s => ({ s with appRows := s.appRows ++ ["row"] }, none)

/-- A migration function that inserts one row and then returns an error. -/
def fnWriteFail : MigState → MigState × Option Nat :=
  fun s => ({ s with appRows := s.appRows ++ ["row"] }, some 1)

/-- An empty database for the migration runner. -/
def emptyMig : MigState := { migrationKeys := [], appRows := [] }

/-- An executor named `r1` that always denies. -/
def denyExec : RuleExecutor := { name := "r1", run := fun _ => false }

/-- The registry holding only `denyExec`. -/
def reg1 : Registry := registerRule [] (some denyExec)

/-- A gathered rule whose name `r1` is registered. -/
def rule1 : Rule := { id := 1, ruleType := 13, parentId := 10, name := "r1" }

/-- A gathered rule whose name is absent from the registry. -/
def ruleUnknown : Rule := { id := 2, ruleType := 13, parentId := 10, name := "unknown" }

/-! ### Claim theorems -/

/-- Claim C1: the claim says every data-access error during pipeline steps
1-4 surfaces as an infrastructure failure distinct from Forbidden and is
never interpreted as an allow.  The code falsifies both parts: (first
conjunct) an error from `GetPermissionRuleContext` (step-4 rule gathering)
is discarded — `err` is immediately overwritten — and the pipeline returns
the full-allow outcome `(no status written, nil error)`; (second and third
conjuncts) an error from `CanAccess` writes HTTP 403, the very status a
plain permission denial writes, so at the HTTP boundary the infrastructure
failure is not distinct from Forbidden. -/
theorem authRBAC_swallows_rule_gathering_error :
    authRBAC [] (some sampleUser)
      { canAccess := .ok (.ok true)
        rolesResource := .ok (.ok [{ id := 10, name := "admin" }])
        permByResource := .ok (.ok (some dashPermission))
        rolesRule := .ok (.ok [])
        permissionRule := .ok (.error (.dbError 5)) } = .response none none ∧
    authRBAC [] (some sampleUser)
      { canAccess := .ok (.error (.dbError 7))
        rolesResource := .ok (.ok [])
        permByResource := .ok (.ok none)
        rolesRule := .ok (.ok [])
        permissionRule := .ok (.ok []) } = .response (some 403) (some (.data (.dbError 7))) ∧
    authRBAC [] (some sampleUser)
      { canAccess := .ok (.ok false)
        rolesResource := .ok (.ok [])
        permByResource := .ok (.ok none)
        rolesRule := .ok (.ok [])
        permissionRule := .ok (.ok []) } = .response (some 403) none :=
  ⟨rfl, rfl, rfl⟩

/-- Claim C2: the claim says a failing migration function is rolled back so
that none of its partial writes persist.  In the code the deferred cleanup
received the value `err` had AT THE `defer` STATEMENT (the nil `Begin`
error), so its rollback branch is dead and the transaction commits: after
`Run "k" fnWriteFail` the committed state contains the row `fnWriteFail`
wrote.  The rest of the claim does hold and is part of this evaluation: no
Migration Record for `"k"` is written, the original error propagates, and a
subsequent `Run "k" fnWriteOk` succeeds and is recorded. -/
theorem run_commits_partial_writes_on_fn_error :
    Run emptyMig "k" fnWriteFail false
      = ({ migrationKeys := [], appRows := ["row"] }, some (.fnError 1)) ∧
    Run { migrationKeys := [], appRows := ["row"] } "k" fnWriteOk false
      = ({ migrationKeys := ["k"], appRows := ["row", "row"] }, none) :=
  ⟨rfl, rfl⟩

/-- Claim C4: the claim says revoking a session token and then verifying it
always fails.  Cookie-mode revocation (`ClearSession`) does delete the
cache key and a later verify fails, and deleting an absent key is not an
error — but token-mode `Logout` deletes the RAW `Authorization` header
value `"Bearer tok"` while the cache key written by `SignIn` is the bare
token `"tok"`: the cache is unchanged and `VerifyToken "tok"` still
succeeds after `Logout`. -/
theorem logout_leaves_token_verifiable :
    tokenFromHeader "Bearer tok" = some "tok" ∧
    logout [("tok", (7 : Int))] { ctxUser := some sampleUser, authorizationHeader := "Bearer tok" }
      = .ok ([("tok", (7 : Int))], none) ∧
    verifyToken [("tok", (7 : Int))] "tok" = .ok 7 ∧
    clearSession [("ck", (9 : Int))] "ck" = ([], none) ∧
    verifyToken [] "ck" = .error .redisNil ∧
    clearSession [] "missing" = ([], none) :=
  ⟨rfl, rfl, rfl, rfl, rfl, rfl⟩

/-- Claim C5: the claim says a user holding a role granted the exact
`(method, route)` permission, with no attached rules, is allowed.  The
direct-grant check does pass (first conjunct), but `GetRolesRule` builds a
query whose text holds `2n+1` placeholders while only `2n` arguments are
supplied (`args[0]` overwrites the first nil placeholder instead of
replacing the extra `?`), the store rejects the statement, and the pipeline
writes 403 with the query error instead of allowing (second conjunct).
The Forbidden half of the claim holds: with the role-permission link
removed the pipeline writes 403 (fourth conjunct). -/
theorem authRBACDb_grant_denied_by_malformed_query :
    canAccess grantDb 1 "GET" "/dashboard" = true ∧
    authRBACDb [] sampleUser grantDb "GET" "/dashboard"
      = .response (some 403) (some (.data .argCountMismatch)) ∧
    canAccess noGrantDb 1 "GET" "/dashboard" = false ∧
    authRBACDb [] sampleUser noGrantDb "GET" "/dashboard" = .response (some 403) none :=
  ⟨rfl, rfl, rfl, rfl⟩

/-- Claim C8: the claim says that when the migration function succeeds but
the Migration Record write fails, the whole transaction is rolled back and
the error surfaces as `MigrationHistoryError`.  The error does surface as
`ErrMigrationHistory`, but the deferred cleanup (holding the stale nil
`err` captured at the `defer` statement) commits instead of rolling back:
the committed state contains the row the migration function wrote. -/
theorem run_commits_when_history_write_fails :
    Run emptyMig "k" fnWriteOk true
      = ({ migrationKeys := [], appRows := ["row"] }, some .migrationHistory) :=
  rfl

/-- Claim C3 counterexample: the claim says a lookup miss, a password
mismatch and an inactive user all fail with a single indistinguishable
`InvalidCredentials` failure kind.  With the same login parameters the
three conditions return the three pairwise DISTINCT error values
`ErrInvalidUserLogin`, `ErrInvalidPasswordLogin` and `ErrUserNotActive`, so
the failure kinds are observably different at the public boundary. -/
theorem authenticate_failures_distinguishable :
    authenticate .email (fun h p => h == p) [] { identifier := "admin@example.com", password := "pw" }
      = .error .invalidUserLogin ∧
    authenticate .email (fun h p => h == p)
      [{ id := 1, username := "admin", email := "admin@example.com", password := "secret", active := true }]
      { identifier := "admin@example.com", password := "pw" } = .error .invalidPasswordLogin ∧
    authenticate .email (fun h p => h == p)
      [{ id := 1, username := "admin", email := "admin@example.com", password := "pw", active := false }]
      { identifier := "admin@example.com", password := "pw" } = .error .userNotActive ∧
    AuthError.invalidUserLogin ≠ AuthError.invalidPasswordLogin ∧
    AuthError.invalidPasswordLogin ≠ AuthError.userNotActive ∧
    AuthError.invalidUserLogin ≠ AuthError.userNotActive :=
  ⟨rfl, rfl, rfl, by decide, by decide, by decide⟩

/-- Claim C3 amended: `Authenticate` fails with three distinct error kinds
— `ErrInvalidUserLogin` on a lookup miss, `ErrInvalidPasswordLogin` on a
password mismatch, `ErrUserNotActive` on a matched user with
`active=false` — and only an existing, active user whose password verifies
is returned. -/
theorem authenticate_failure_kinds (m : LoginMethod) (v : String → String → Bool)
    (db : List User) (p : LoginParams) :
    (findUserLogin m db p.identifier = none →
      authenticate m v db p = .error .invalidUserLogin) ∧
    (∀ u, findUserLogin m db p.identifier = some u → v u.password p.password = false →
      authenticate m v db p = .error .invalidPasswordLogin) ∧
    (∀ u, findUserLogin m db p.identifier = some u → v u.password p.password = true →
      u.active = false → authenticate m v db p = .error .userNotActive) ∧
    (∀ u, authenticate m v db p = .ok u ↔
      findUserLogin m db p.identifier = some u ∧ v u.password p.password = true ∧
        u.active = true) := by
  refine ⟨?_, ?_, ?_, ?_⟩
  · intro h
    simp [authenticate, h]
  · intro u hu hv
    simp [authenticate, hu, hv]
  · intro u hu hv ha
    simp [authenticate, hu, hv, ha]
  · intro u
    cases h : findUserLogin m db p.identifier with
    | none => simp [authenticate, h]
    | some w =>
      cases hv : v w.password p.password with
      | false =>
        simp [authenticate, h, hv]
        intro he hvu
        subst he
        simp [hv] at hvu
      | true =>
        cases ha : w.active with
        | false =>
          simp [authenticate, h, hv, ha]
          intro he _
          subst he
          exact ha
        | true =>
          simp [authenticate, h, hv, ha]
          intro he
          subst he
          exact ⟨hv, ha⟩

/-- Claim C3 amended, witness: the lookup-miss branch and the success
branch at concrete inputs. -/
theorem authenticate_failure_kinds_witness :
    authenticate .email (fun h p => h == p) [] { identifier := "a@b", password := "pw" }
      = .error .invalidUserLogin ∧
    authenticate .email (fun h p => h == p) [sampleUser]
      { identifier := "admin@example.com", password := "hashpw" } = .ok sampleUser :=
  ⟨(authenticate_failure_kinds .email (fun h p => h == p) []
      { identifier := "a@b", password := "pw" }).1 rfl,
   ((authenticate_failure_kinds .email (fun h p => h == p) [sampleUser]
      { identifier := "admin@example.com", password := "hashpw" }).2.2.2 sampleUser).mpr
     ⟨rfl, rfl, rfl⟩⟩

/-- Claim C6: during rule execution the decision is allow (nil error) iff
every registered executor of every gathered rule returns true (first
conjunct); a gathered rule whose name is absent from the registry is
skipped, i.e. evaluation continues exactly as without it (second
conjunct); and the first executor that returns deny aborts evaluation with
the error annotated with the offending rule's name (third conjunct). -/
theorem executeRules_allow_iff_and_first_deny (reg : Registry) (u : User) :
    (∀ rules : List Rule, executeRules reg u rules = none ↔
        ∀ r ∈ rules, ∀ ex, reg.lookup r.name = some ex → ex.run u = true) ∧
    (∀ (r : Rule) (rest : List Rule), reg.lookup r.name = none →
        executeRules reg u (r :: rest) = executeRules reg u rest) ∧
    (∀ (pre : List Rule) (r : Rule) (post : List Rule) (ex : RuleExecutor),
        (∀ r' ∈ pre, ∀ ex', reg.lookup r'.name = some ex' → ex'.run u = true) →
        reg.lookup r.name = some ex → ex.run u = false →
        executeRules reg u (pre ++ r :: post) = some ("blocked by rule " ++ ex.name)) := by
  refine ⟨?_, ?_, ?_⟩
  · intro rules
    induction rules with
    | nil => simp [executeRules]
    | cons r rest ih =>
      cases h : reg.lookup r.name with
      | none => simp [executeRules, h, ih]
      | some ex =>
        cases hrun : ex.run u with
        | true => simp [executeRules, h, hrun, ih]
        | false => simp [executeRules, h, hrun]
  · intro r rest h
    simp [executeRules, h]
  · intro pre
    induction pre with
    | nil =>
      intro r post ex _ hl hr
      simp [executeRules, hl, hr]
    | cons q qs ih =>
      intro r post ex hpre hl hr
      have hq := hpre q (by simp)
      have htail : ∀ r' ∈ qs, ∀ ex', reg.lookup r'.name = some ex' → ex'.run u = true :=
        fun r' h' ex' => hpre r' (by simp [h']) ex'
      cases h2 : reg.lookup q.name with
      | none =>
        simpa [executeRules, h2] using ih r post ex htail hl hr
      | some exq =>
        have hrunq : exq.run u = true := hq exq h2
        simpa [executeRules, h2, hrunq] using ih r post ex htail hl hr

/-- Claim C6 witness: in a registry holding only the always-denying
executor `r1`, a gathered list with an unregistered rule first and `r1`
second blocks with the message naming `r1`, and a list holding only the
unregistered rule is allowed. -/
theorem executeRules_allow_iff_and_first_deny_witness :
    executeRules reg1 sampleUser [ruleUnknown, rule1]
      = some ("blocked by rule " ++ denyExec.name) ∧
    executeRules reg1 sampleUser [ruleUnknown] = none := by
  have h := executeRules_allow_iff_and_first_deny reg1 sampleUser
  constructor
  · exact h.2.2 [ruleUnknown] rule1 [] denyExec
      (by
        intro r' h' ex' hx
        simp [List.mem_singleton] at h'
        subst h'
        simp [reg1, registerRule, denyExec, ruleUnknown, List.lookup] at hx)
      rfl rfl
  · exact (h.1 [ruleUnknown]).mpr
      (by
        intro r' h' ex' hx
        simp [List.mem_singleton] at h'
        subst h'
        simp [reg1, registerRule, denyExec, ruleUnknown, List.lookup] at hx)

/-- Claim C7: when a Migration Record for the key already exists, `Run`
returns `ErrMigrationAlreadyExist` with the committed state unchanged, and
the result does not depend on the migration function or on whether the
history write would fail — the function is never invoked. -/
theorem run_already_applied (db : MigState) (name : String)
    (fn fn' : MigState → MigState × Option Nat) (w w' : Bool)
    (h : checkExistingMigration db name = true) :
    Run db name fn w = (db, some .alreadyExist) ∧
    Run db name fn w = Run db name fn' w' := by
  unfold Run
  simp [h]

/-- Claim C7 witness: a database already holding key `k` is left unchanged
by a second run, whichever migration function is supplied. -/
theorem run_already_applied_witness :
    Run { migrationKeys := ["k"], appRows := [] } "k" fnWriteOk true
      = ({ migrationKeys := ["k"], appRows := [] }, some .alreadyExist) ∧
    Run { migrationKeys := ["k"], appRows := [] } "k" fnWriteOk true
      = Run { migrationKeys := ["k"], appRows := [] } "k" fnWriteFail false :=
  run_already_applied { migrationKeys := ["k"], appRows := [] } "k"
    fnWriteOk fnWriteFail true false (by decide)

/-- Claim C9: after a successful authentication the `UserPrinciple` value
is attached only to the request copy local to `authenticateRoute` (first
conjunct); the request the middleware forwards to `authenticateRBAC` and to
the inner handler is the caller's own request, unchanged (second conjunct);
that request does not carry the value (third conjunct); and `GetUserLogin`
performs an unchecked type assertion on the absent value, which panics
rather than returning the logged-in user or nil (fourth conjunct), so
`authenticateRBAC` itself panics on such a request (fifth conjunct). -/
theorem userPrinciple_attached_only_locally (r : Request) (u : User)
    (h : r.ctxUserPrinciple = none) :
    (authenticateRoute r (.ok u)).localRequest.ctxUserPrinciple = some u ∧
    forwardedRequest r (.ok u) = some r ∧
    r.ctxUserPrinciple = none ∧
    GetUserLogin r.ctxUserPrinciple = .error .nilInterfaceConversion ∧
    (∀ (reg : Registry) (c : RBACCalls),
      authRBAC reg r.ctxUserPrinciple c = .panicked .nilInterfaceConversion) := by
  refine ⟨rfl, rfl, h, ?_, ?_⟩
  · rw [h]
    rfl
  · intro reg c
    rw [h]
    rfl

/-- Claim C9 witness: the request that entered the middleware without a
`UserPrinciple` context value, evaluated at a concrete user. -/
theorem userPrinciple_attached_only_locally_witness :
    (authenticateRoute { ctxUserPrinciple := none } (.ok sampleUser)).localRequest.ctxUserPrinciple
      = some sampleUser ∧
    forwardedRequest { ctxUserPrinciple := none } (.ok sampleUser)
      = some { ctxUserPrinciple := none } ∧
    Request.ctxUserPrinciple { ctxUserPrinciple := none } = none ∧
    GetUserLogin (Request.ctxUserPrinciple { ctxUserPrinciple := none })
      = .error .nilInterfaceConversion ∧
    (∀ (reg : Registry) (c : RBACCalls),
      authRBAC reg (Request.ctxUserPrinciple { ctxUserPrinciple := none }) c
        = .panicked .nilInterfaceConversion) :=
  userPrinciple_attached_only_locally { ctxUserPrinciple := none } sampleUser rfl

/-- Positions strictly inside a replicate prefix read the replicated
element. -/
theorem get?_replicate_append {α : Type} (a : α) (rest : List α) :
    ∀ (k n : Nat), k < n → (List.replicate n a ++ rest).get? k = some a := by
  intro k n
  induction n generalizing k with
  | zero => omega
  | succ n ih =>
    intro hk
    cases k with
    | zero => simp [List.replicate_succ]
    | succ k =>
      simp only [List.replicate_succ, List.cons_append, List.get?_cons_succ]
      exact ih k (by omega)

/-- Claim C10: `GetRolesRule` and `GetRolesRuleContext` panic with an
index-out-of-range on an empty role slice, because `args[0]` is assigned on
a zero-length slice (first two conjuncts); the two functions build the same
argument list (third conjunct); and for a non-empty role slice the list has
length `2 * len(roles)`, holds the nil placeholders at positions 1 through
`len(roles) - 1`, and ends with the appended role ids (final conjunct). -/
theorem getRolesRuleArgs_shape :
    getRolesRuleArgs ([] : List Role) = .error .indexOutOfRange ∧
    getRolesRuleContextArgs ([] : List Role) = .error .indexOutOfRange ∧
    getRolesRuleContextArgs = getRolesRuleArgs ∧
    ∀ (roles : List Role), roles ≠ [] →
      ∃ l, getRolesRuleArgs roles = .ok l ∧
        l = (some roleRuleType :: List.replicate (roles.length - 1) none)
              ++ roles.map (fun r => some r.id) ∧
        l.length = 2 * roles.length ∧
        (∀ i, 1 ≤ i → i < roles.length → l.get? i = some none) ∧
        l.drop roles.length = roles.map (fun r => some r.id) := by
  refine ⟨rfl, rfl, rfl, ?_⟩
  intro roles hne
  cases roles with
  | nil => exact absurd rfl hne
  | cons r rs =>
    refine ⟨(some roleRuleType :: List.replicate rs.length none)
        ++ (r :: rs).map (fun x => some x.id), ?_, ?_, ?_, ?_, ?_⟩
    · simp [getRolesRuleArgs, List.replicate_succ]
    · simp
    · simp [List.length_replicate, List.length_map]
      omega
    · intro i h1 h2
      cases i with
      | zero => omega
      | succ j =>
        simp only [List.cons_append, List.get?_cons_succ]
        exact get?_replicate_append none _ j rs.length (by simp at h2; omega)
    · have hlen : (some roleRuleType :: List.replicate rs.length none).length
          = (r :: rs).length := by simp
      rw [← hlen]
      exact List.drop_left _ _

/-- Claim C10 witness: a single-role slice yields the two-element argument
list `[RoleRuleType, role id]` with the stated shape. -/
theorem getRolesRuleArgs_shape_witness :
    ∃ l, getRolesRuleArgs [{ id := 10, name := "admin" }] = .ok l ∧
      l = (some roleRuleType :: List.replicate 0 none)
            ++ [{ id := 10, name := "admin" : Role }].map (fun r => some r.id) ∧
      l.length = 2 * 1 ∧
      (∀ i, 1 ≤ i → i < 1 → l.get? i = some none) ∧
      l.drop 1 = [{ id := 10, name := "admin" : Role }].map (fun r => some r.id) :=
  getRolesRuleArgs_shape.2.2.2 [{ id := 10, name := "admin" }] (by simp)

end Guardian
